import Mathlib

/-!
# Shallow embedding of the Intcode virtual machine

This file embeds the Intcode VM of `src/python/year_2019/intcode.py`
(class `IntcodeComputer`, dictionary-backed memory) together with the
memory subsystem of the older variant `src/2019/intcode.py`
(list-backed program plus `extra_memory` dictionary), and proves the
spec-level claims about them.

Modelling conventions:
* Python `dict[int, int]` is an insertion-ordered association list
  `List (Int × Int)` with distinct keys; `d[k]`, `d.get(k, 0)` and
  `d[k] = v` are `dictGet?`, `dictGetD` and `dictSet`.
* Python strings are `List Char`; `str(i)` is `pyStr`, `.zfill` is
  `pyZfill`, and the slice `[-3::-1]` is `modeSlice`.
* Uncaught Python exceptions (`KeyError`, `IndexError`, `ValueError`,
  `AttributeError`) are explicit `Err` results carrying the state of
  the object at the moment the exception is raised (in CPython the
  mutations already performed persist on the instance).
* `input()` (interactive stdin, `ask_for_input=True`) is outside the
  pure embedding and is modelled as the distinct result
  `Err.interactiveRead`; no claim concerns that configuration.
* `run()`'s unbounded `while` loop is modelled with explicit fuel
  (`runFuel`); running out of fuel is the distinct outcome `diverge`.
-/

namespace Intcode

/-- Uncaught Python exception kinds that the source can raise. -/
inductive Err where
  | keyError
  | indexError
  | valueError
  | attributeError
  | interactiveRead
  deriving DecidableEq, Repr

/-- Python `dict[int, int]`: insertion-ordered association list. -/
abbrev Mem := List (Int × Int)

/-- `d[k]` / `k in d`: lookup by key. -/
def dictGet? : Mem → Int → Option Int
  | [], _ => none
  | (k, v) :: rest, i => if k = i then some v else dictGet? rest i

/-- `d.get(k, 0)`: lookup with default `0`. -/
def dictGetD (m : Mem) (i : Int) : Int :=
  (dictGet? m i).getD 0

/-- `d[k] = v`: replace the binding if the key is present, else append. -/
def dictSet : Mem → Int → Int → Mem
  | [], k, v => [(k, v)]
  | (k', v') :: rest, k, v =>
      if k' = k then (k, v) :: rest else (k', v') :: dictSet rest k v

/-- `{index: value for index, value in enumerate(program)}`, keys from `i`. -/
def initMemFrom (i : Int) : List Int → Mem
  | [] => []
  | v :: rest => (i, v) :: initMemFrom (i + 1) rest

/-- `{index: value for index, value in enumerate(program)}`. -/
def initMem (program : List Int) : Mem :=
  initMemFrom 0 program

/-- Python `str(i)` for an integer, as a list of characters. -/
def pyStr (i : Int) : List Char :=
  if i < 0 then '-' :: Nat.toDigits 10 i.natAbs else Nat.toDigits 10 i.natAbs

/-- Python `s.zfill(w)`: left-pad with `'0'` to width `w`, after a sign. -/
def pyZfill (s : List Char) (w : Nat) : List Char :=
  if w ≤ s.length then s
  else
    match s with
    | '-' :: rest => '-' :: (List.replicate (w - s.length) '0' ++ rest)
    | _ => List.replicate (w - s.length) '0' ++ s

/-- Python `s[-3::-1]` for `s.length ≥ 2`: the characters from index
`length - 3` down to index `0`. -/
def modeSlice (s : List Char) : List Char :=
  (s.take (s.length - 2)).reverse

/-- Python `int(c)` on a one-character string: its digit value, or a
`ValueError` (`none`) for a non-digit such as `'-'`. -/
def charToDigit? (c : Char) : Option Nat :=
  if '0' ≤ c ∧ c ≤ '9' then some (c.toNat - '0'.toNat) else none

/-- Python `s[-1]` on a non-empty string. -/
def lastChar (s : List Char) : Char :=
  s.getLastD ' '

/-- The state of one `IntcodeComputer` instance
(`src/python/year_2019/intcode.py`).  The `sentinel_return` object is
represented by the event `RunEvent.sentinelReturn` rather than stored. -/
structure Computer where
  returnBeforeInput : Bool
  askForInput : Bool
  printOutput : Bool
  returnOutput : Bool
  gatherOutput : Bool
  returned : Bool
  pointer : Int
  outputs : List Int
  relativeBase : Int
  inputs : List Int
  memory : Mem
  originalProgram : Mem
  originalInputs : List Int
  deriving DecidableEq, Repr

/-- The caller-visible content of the `inputs` list after `__init__`:
`inputs.insert(0, amp_phase)` mutates the caller's list in place. -/
def callerInputsAfterInit (inputs : List Int) (ampPhase : Option Int) : List Int :=
  match ampPhase with
  | some p => p :: inputs
  | none => inputs

/-- `IntcodeComputer.__init__`.  Returns the constructed instance
together with the caller's `inputs` list as it stands after the call
(the constructor mutates it in place when `amp_phase` is given). -/
def initComputer (program inputs : List Int) (ampPhase : Option Int)
    (askForInput returnBeforeInput printOutput returnOutput gatherOutput : Bool) :
    Computer × List Int :=
  let ins := callerInputsAfterInit inputs ampPhase
  ({ returnBeforeInput := returnBeforeInput
     askForInput := askForInput
     printOutput := printOutput
     returnOutput := returnOutput
     gatherOutput := gatherOutput
     returned := false
     pointer := 0
     outputs := []
     relativeBase := 0
     inputs := ins
     memory := initMem program
     originalProgram := initMem program
     originalInputs := ins }, ins)

/-- The constructed `IntcodeComputer` instance. -/
def mkComputer (program inputs : List Int) (ampPhase : Option Int)
    (askForInput returnBeforeInput printOutput returnOutput gatherOutput : Bool) :
    Computer :=
  (initComputer program inputs ampPhase askForInput returnBeforeInput
    printOutput returnOutput gatherOutput).1

/-- `IntcodeComputer.reset`. -/
def reset (s : Computer) : Computer :=
  { s with
    memory := s.originalProgram
    inputs := s.originalInputs
    pointer := 0
    outputs := [] }

/-- The `value` property: `self._memory[self._pointer]` (a plain dict
index, so a `KeyError` when the pointer is not a key). -/
def value (s : Computer) : Except Err Int :=
  match dictGet? s.memory s.pointer with
  | some v => .ok v
  | none => .error .keyError

/-- `IntcodeComputer.halted`: `self.value == 99`. -/
def halted (s : Computer) : Except Err Bool :=
  (value s).map (fun v => v == 99)

/-- `IntcodeComputer.current_code`: `str(self.value)[-1]`. -/
def currentCodeChar (s : Computer) : Except Err Char :=
  (value s).map (fun v => lastChar (pyStr v))

/-- `IntcodeComputer.append_inputs`. -/
def appendInputs (s : Computer) (vals : List Int) : Computer :=
  { s with inputs := s.inputs ++ vals }

/-- `[self._memory[k] for k in range(p + 1, p + qty + 1)]`, raising
`KeyError` at the first absent key. -/
def fetchParams (s : Computer) : Nat → Int → Except Err (List Int)
  | 0, _ => .ok []
  | n + 1, i =>
      match dictGet? s.memory i with
      | none => .error .keyError
      | some v =>
          match fetchParams s n (i + 1) with
          | .error e => .error e
          | .ok rest => .ok (v :: rest)

/-- `[int(i) for i in instruction[-3::-1]]`, raising `ValueError` at the
first non-digit character. -/
def modeInts : List Char → Except Err (List Int)
  | [] => .ok []
  | c :: rest =>
      match charToDigit? c with
      | none => .error .valueError
      | some d =>
          match modeInts rest with
          | .error e => .error e
          | .ok l => .ok ((d : Int) :: l)

/-- `IntcodeComputer._param_val_and_mode`: the parameter values followed
by the decoded mode digits. -/
def paramValAndMode (s : Computer) (qty : Nat) : Except Err (List Int × List Int) :=
  match fetchParams s qty (s.pointer + 1) with
  | .error e => .error e
  | .ok ps =>
      match value s with
      | .error e => .error e
      | .ok v =>
          match modeInts (modeSlice (pyZfill (pyStr v) (qty + 2))) with
          | .error e => .error e
          | .ok ms => .ok (ps, ms)

/-- `IntcodeComputer._value_for_mode`: immediate returns the parameter,
relative offsets it by the relative base, anything else is treated as
position; the memory read is `dict.get` with default `0`. -/
def valueForMode (s : Computer) (index mode : Int) : Int :=
  if mode = 1 then index
  else if mode = 2 then dictGetD s.memory (index + s.relativeBase)
  else dictGetD s.memory index

/-- `IntcodeComputer._store_in_memory`: relative mode offsets the index
by the relative base; the store is an unconditional dict assignment. -/
def storeInMemory (s : Computer) (index mode v : Int) : Computer :=
  { s with
    memory := dictSet s.memory (if mode = 2 then index + s.relativeBase else index) v }

/-- The result of one `_execute_code_*` method: the value it returned
(`some` output or `none`) and the instance state, or an exception. -/
inductive ExecRes where
  | ok (out : Option Int) (s : Computer)
  | exc (e : Err) (s : Computer)
  deriving DecidableEq, Repr

/-- The shared body of `_execute_code_1/2/7/8`: resolve both source
operands, store `f v1 v2` at the destination, advance the pointer by 4. -/
def binOpCore (f : Int → Int → Int) (s : Computer) (p1 m1 p2 m2 p3 m3 : Int) :
    Computer :=
  let v1 := valueForMode s p1 m1
  let v2 := valueForMode s p2 m2
  let s1 := storeInMemory s p3 m3 (f v1 v2)
  { s1 with pointer := s1.pointer + 4 }

/-- Decode three parameters and run `binOpCore`; a mode list of any
other length makes the source's tuple unpacking raise `ValueError`. -/
def execBinOp (f : Int → Int → Int) (s : Computer) : ExecRes :=
  match paramValAndMode s 3 with
  | .error e => .exc e s
  | .ok ([p1, p2, p3], [m1, m2, m3]) => .ok none (binOpCore f s p1 m1 p2 m2 p3 m3)
  | .ok _ => .exc .valueError s

/-- `IntcodeComputer._execute_code_1` (add). -/
def executeCode1 (s : Computer) : ExecRes :=
  execBinOp (fun a b => a + b) s

/-- `IntcodeComputer._execute_code_2` (multiply). -/
def executeCode2 (s : Computer) : ExecRes :=
  execBinOp (fun a b => a * b) s

/-- `IntcodeComputer._execute_code_3` (input): pop the front of the
input queue (an `IndexError` when it is empty) and store it. -/
def executeCode3 (s : Computer) : ExecRes :=
  match paramValAndMode s 1 with
  | .error e => .exc e s
  | .ok ([p1], [m1]) =>
      if s.askForInput then .exc .interactiveRead s
      else
        match s.inputs with
        | [] => .exc .indexError s
        | x :: rest =>
            let s1 := storeInMemory { s with inputs := rest } p1 m1 x
            .ok none { s1 with pointer := s1.pointer + 2 }
  | .ok _ => .exc .valueError s

/-- `IntcodeComputer._execute_code_4` (output): append to the gathered
outputs under `gather_output`, advance the pointer, and return the
value under `return_output` (printing has no state effect). -/
def executeCode4 (s : Computer) : ExecRes :=
  match paramValAndMode s 1 with
  | .error e => .exc e s
  | .ok ([p1], [m1]) =>
      let v1 := valueForMode s p1 m1
      let s1 := if s.gatherOutput then { s with outputs := s.outputs ++ [v1] } else s
      .ok (if s.returnOutput then some v1 else none) { s1 with pointer := s1.pointer + 2 }
  | .ok _ => .exc .valueError s

/-- `IntcodeComputer._execute_code_5` (jump-if-true). -/
def executeCode5 (s : Computer) : ExecRes :=
  match paramValAndMode s 2 with
  | .error e => .exc e s
  | .ok ([p1, p2], [m1, m2]) =>
      let check := valueForMode s p1 m1
      let jump := valueForMode s p2 m2
      .ok none { s with pointer := if check ≠ 0 then jump else s.pointer + 3 }
  | .ok _ => .exc .valueError s

/-- `IntcodeComputer._execute_code_6` (jump-if-false). -/
def executeCode6 (s : Computer) : ExecRes :=
  match paramValAndMode s 2 with
  | .error e => .exc e s
  | .ok ([p1, p2], [m1, m2]) =>
      let check := valueForMode s p1 m1
      let jump := valueForMode s p2 m2
      .ok none { s with pointer := if check = 0 then jump else s.pointer + 3 }
  | .ok _ => .exc .valueError s

/-- `IntcodeComputer._execute_code_7` (less-than). -/
def executeCode7 (s : Computer) : ExecRes :=
  execBinOp (fun a b => if a < b then 1 else 0) s

/-- `IntcodeComputer._execute_code_8` (equals). -/
def executeCode8 (s : Computer) : ExecRes :=
  execBinOp (fun a b => if a = b then 1 else 0) s

/-- `IntcodeComputer._execute_code_9` (adjust relative base). -/
def executeCode9 (s : Computer) : ExecRes :=
  match paramValAndMode s 1 with
  | .error e => .exc e s
  | .ok ([p1], [m1]) =>
      let v := valueForMode s p1 m1
      .ok none { s with relativeBase := s.relativeBase + v, pointer := s.pointer + 2 }
  | .ok _ => .exc .valueError s

/-- `getattr(self, f"_execute_code_{code}")` followed by the call: the
handler for the dispatch character, or an `AttributeError` when no
`_execute_code_*` method with that suffix exists. -/
def executeCode (c : Char) (s : Computer) : ExecRes :=
  if c = '1' then executeCode1 s
  else if c = '2' then executeCode2 s
  else if c = '3' then executeCode3 s
  else if c = '4' then executeCode4 s
  else if c = '5' then executeCode5 s
  else if c = '6' then executeCode6 s
  else if c = '7' then executeCode7 s
  else if c = '8' then executeCode8 s
  else if c = '9' then executeCode9 s
  else .exc .attributeError s

/-- What one `run()` call evaluates to. -/
inductive RunEvent where
  | sentinelReturn
  | producedOutput (v : Int)
  | gathered (outs : List Int)
  | noneValue
  deriving DecidableEq, Repr

/-- The outcome of a `run()` call on a given instance: a returned event
with the instance state after the call, an uncaught exception with the
instance state at the raise, or fuel exhaustion. -/
inductive RunOutcome where
  | ret (ev : RunEvent) (s : Computer)
  | exc (e : Err) (s : Computer)
  | diverge (s : Computer)
  deriving DecidableEq, Repr

/-- The instance state carried by a `RunOutcome`. -/
def outcomeState : RunOutcome → Computer
  | .ret _ s => s
  | .exc _ s => s
  | .diverge s => s

/-- The returned event of a `RunOutcome`, when there is one. -/
def outcomeEvent? : RunOutcome → Option RunEvent
  | .ret ev _ => some ev
  | _ => none

/-- One iteration of `run()`'s `while` loop: either the loop continues
with an updated state, or `run()` finishes with an outcome. -/
inductive StepRes where
  | next (s : Computer)
  | finished (o : RunOutcome)
  deriving DecidableEq, Repr

/-- One iteration of `IntcodeComputer.run`: test `halted()`, read the
dispatch character, take the sentinel early-return if armed, otherwise
dispatch and handle the handler's return value and the `_returned`
flag; on loop exit return the gathered outputs or `None`. -/
def runStep (s : Computer) : StepRes :=
  match halted s with
  | .error e => .finished (.exc e s)
  | .ok true =>
      .finished (.ret (if s.gatherOutput then .gathered s.outputs else .noneValue) s)
  | .ok false =>
      match currentCodeChar s with
      | .error e => .finished (.exc e s)
      | .ok c =>
          if c = '3' ∧ s.returnBeforeInput = true ∧ s.returned = false then
            .finished (.ret .sentinelReturn { s with returned := true })
          else
            match executeCode c s with
            | .exc e s1 => .finished (.exc e s1)
            | .ok (some v) s1 => .finished (.ret (.producedOutput v) s1)
            | .ok none s1 =>
                .next (if s1.returned then { s1 with returned := false } else s1)

/-- `IntcodeComputer.run` with explicit fuel for the `while` loop. -/
def runFuel : Nat → Computer → RunOutcome
  | 0, s => .diverge s
  | n + 1, s =>
      match runStep s with
      | .finished o => o
      | .next s1 => runFuel n s1

/-- A host-side call on the instance between construction and `reset()`:
a `run()` call (with the given fuel) or an `append_inputs` call. -/
inductive HostOp where
  | runOp (fuel : Nat)
  | appendOp (vals : List Int)

/-- The instance state after one host-side call; an uncaught exception
leaves the caller observing the instance as mutated so far. -/
def applyOp (s : Computer) (op : HostOp) : Computer :=
  match op with
  | .runOp fuel => outcomeState (runFuel fuel s)
  | .appendOp vals => appendInputs s vals

/-- The memory subsystem state of the older variant
(`src/2019/intcode.py`): a list-backed `program`, the construction-time
`program_length`, the `extra_memory` dictionary and the relative base. -/
structure OldMem where
  program : List Int
  programLength : Nat
  extraMemory : Mem
  relativeBase : Int
  deriving DecidableEq, Repr

/-- Python list item assignment `l[i] = v` with negative-index
wrap-around; `none` is an `IndexError`. -/
def pyListSet? (l : List Int) (i : Int) (v : Int) : Option (List Int) :=
  let j := if i < 0 then i + l.length else i
  if 0 ≤ j ∧ j < l.length then some (l.set j.toNat v) else none

/-- `IntcodeComputer._store_in_memory` of `src/2019/intcode.py`: extra
memory is used only for indices strictly greater than `program_length`;
all other indices go through Python list assignment. -/
def oldStoreInMemory (s : OldMem) (index mode v : Int) : Except Err OldMem :=
  let mi := if mode = 2 then s.relativeBase + index else index
  if mi > (s.programLength : Int) then
    .ok { s with extraMemory := dictSet s.extraMemory mi v }
  else
    match pyListSet? s.program mi v with
    | some l => .ok { s with program := l }
    | none => .error .indexError

/-! ## Decoding lemmas: the last character of a decimal representation -/

theorem toDigitsCore_eq_append (b : Nat) :
    ∀ (fuel n : Nat) (ds : List Char),
      Nat.toDigitsCore b fuel n ds = Nat.toDigitsCore b fuel n [] ++ ds := by
  intro fuel
  induction fuel with
  | zero => intro n ds; simp [Nat.toDigitsCore]
  | succ f ih =>
    intro n ds
    simp only [Nat.toDigitsCore]
    by_cases h : n / b = 0
    · simp [h]
    · simp only [h, if_neg, ite_false]
      rw [ih (n / b) (Nat.digitChar (n % b) :: ds),
        ih (n / b) [Nat.digitChar (n % b)]]
      simp

theorem toDigits_ends (n : Nat) :
    ∃ l, Nat.toDigits 10 n = l ++ [Nat.digitChar (n % 10)] := by
  unfold Nat.toDigits
  simp only [Nat.toDigitsCore]
  by_cases h : n / 10 = 0
  · exact ⟨[], by simp [h]⟩
  · refine ⟨Nat.toDigitsCore 10 n (n / 10) [], ?_⟩
    simp only [h, if_neg, ite_false]
    exact toDigitsCore_eq_append 10 n (n / 10) [Nat.digitChar (n % 10)]

/-- `str(i)[-1]` is the decimal digit of `|i| mod 10`. -/
theorem lastChar_pyStr (i : Int) :
    lastChar (pyStr i) = Nat.digitChar (i.natAbs % 10) := by
  obtain ⟨l, hl⟩ := toDigits_ends i.natAbs
  unfold pyStr lastChar
  by_cases h : i < 0
  · simp only [h, ite_true, hl]
    rw [← List.cons_append]
    exact List.getLastD_concat _ _ _
  · simp only [h, ite_false, hl]
    exact List.getLastD_concat _ _ _

/-! ## Frame lemmas: no operation touches the construction-time snapshots
or the output-policy configuration -/

/-- The construction-time snapshots an instance carries. -/
def origs (s : Computer) : Mem × List Int :=
  (s.originalProgram, s.originalInputs)

/-- The instance state carried by an `ExecRes`. -/
def execState : ExecRes → Computer
  | .ok _ t => t
  | .exc _ t => t

/-- The instance state carried by a `StepRes`. -/
def stepState : StepRes → Computer
  | .next t => t
  | .finished o => outcomeState o

theorem origs_execBinOp (f : Int → Int → Int) (s : Computer) :
    origs (execState (execBinOp f s)) = origs s := by
  unfold execBinOp
  split <;> rfl

theorem origs_executeCode3 (s : Computer) :
    origs (execState (executeCode3 s)) = origs s := by
  unfold executeCode3
  split
  · rfl
  · split
    · rfl
    · split <;> rfl
  · rfl

theorem origs_executeCode4 (s : Computer) :
    origs (execState (executeCode4 s)) = origs s := by
  unfold executeCode4
  split
  · rfl
  · split <;> rfl
  · rfl

theorem origs_executeCode5 (s : Computer) :
    origs (execState (executeCode5 s)) = origs s := by
  unfold executeCode5
  split <;> rfl

theorem origs_executeCode6 (s : Computer) :
    origs (execState (executeCode6 s)) = origs s := by
  unfold executeCode6
  split <;> rfl

theorem origs_executeCode9 (s : Computer) :
    origs (execState (executeCode9 s)) = origs s := by
  unfold executeCode9
  split <;> rfl

theorem origs_executeCode (c : Char) (s : Computer) :
    origs (execState (executeCode c s)) = origs s := by
  unfold executeCode
  split
  · exact origs_execBinOp _ s
  · split
    · exact origs_execBinOp _ s
    · split
      · exact origs_executeCode3 s
      · split
        · exact origs_executeCode4 s
        · split
          · exact origs_executeCode5 s
          · split
            · exact origs_executeCode6 s
            · split
              · exact origs_execBinOp _ s
              · split
                · exact origs_execBinOp _ s
                · split
                  · exact origs_executeCode9 s
                  · rfl

theorem origs_runStep (s : Computer) :
    origs (stepState (runStep s)) = origs s := by
  unfold runStep
  split
  · rfl
  · rfl
  · split
    · rfl
    · split
      · rfl
      · split
        · rename_i hexec
          have h := origs_executeCode (by assumption) s
          rw [hexec] at h
          exact h
        · rename_i hexec
          have h := origs_executeCode (by assumption) s
          rw [hexec] at h
          exact h
        · rename_i s1 hexec
          have h := origs_executeCode (by assumption) s
          rw [hexec] at h
          split <;> exact h

theorem origs_runFuel (n : Nat) :
    ∀ s : Computer, origs (outcomeState (runFuel n s)) = origs s := by
  induction n with
  | zero => intro s; rfl
  | succ n ih =>
    intro s
    have h := origs_runStep s
    show origs (outcomeState (match runStep s with
      | .finished o => o
      | .next s1 => runFuel n s1)) = origs s
    cases hs : runStep s with
    | finished o =>
      rw [hs] at h
      exact h
    | next s1 =>
      rw [hs] at h
      rw [ih s1]
      exact h

theorem origs_applyOp (s : Computer) (op : HostOp) :
    origs (applyOp s op) = origs s := by
  cases op with
  | runOp fuel => exact origs_runFuel fuel s
  | appendOp vals => rfl

theorem origs_foldl (ops : List HostOp) :
    ∀ s : Computer, origs (List.foldl applyOp s ops) = origs s := by
  induction ops with
  | nil => intro s; rfl
  | cons op rest ih =>
    intro s
    rw [List.foldl_cons, ih (applyOp s op), origs_applyOp s op]

/-! ## Claim C2 -/

/-- Instance used against claim C2: program `[109, 5, 99]` adjusts the
relative base to `5` (word `109`: last digit `9`, mode digit `1`) and
halts. -/
def c2prog : Computer :=
  mkComputer [109, 5, 99] [] none false false false false false

/-- Claim C2, counterexample: after running `[109, 5, 99]` to the halt,
`reset()` leaves the relative base at `5`, not at its construction-time
value `0`. -/
theorem C2_counterexample :
    (reset (outcomeState (runFuel 2 c2prog))).relativeBase = 5 ∧
    c2prog.relativeBase = 0 :=
  ⟨rfl, rfl⟩

/-- Claim C2 as amended: after any sequence of `run()` and
`append_inputs()` calls, `reset()` restores the memory, the instruction
pointer and the input queue to their construction-time values and
clears the outputs, while every other field — in particular the
relative base and the output-policy configuration — keeps its current
value (so the relative base is NOT restored). -/
theorem C2_amended (program inputs : List Int) (ampPhase : Option Int)
    (a r p ro g : Bool) (ops : List HostOp) :
    reset (List.foldl applyOp (mkComputer program inputs ampPhase a r p ro g) ops) =
      { List.foldl applyOp (mkComputer program inputs ampPhase a r p ro g) ops with
        memory := initMem program
        inputs := callerInputsAfterInit inputs ampPhase
        pointer := 0
        outputs := [] } := by
  have h := origs_foldl ops (mkComputer program inputs ampPhase a r p ro g)
  have h1 : (List.foldl applyOp (mkComputer program inputs ampPhase a r p ro g)
      ops).originalProgram = initMem program := congrArg Prod.fst h
  have h2 : (List.foldl applyOp (mkComputer program inputs ampPhase a r p ro g)
      ops).originalInputs = callerInputsAfterInit inputs ampPhase :=
    congrArg Prod.snd h
  unfold reset
  simp only [h1, h2]

/-! ## Claim C6 -/

/-- Claim C6: in `src/2019/intcode.py`, a write at the address exactly
equal to the program length raises `IndexError` (the extra-memory
branch requires the index to be strictly greater), while the neighbours
on either side succeed. -/
theorem C6_old_store_boundary :
    oldStoreInMemory ⟨[1, 0, 0, 0, 99], 5, [], 0⟩ 5 0 42 = .error .indexError ∧
    oldStoreInMemory ⟨[1, 0, 0, 0, 99], 5, [], 0⟩ 6 0 42 =
      .ok ⟨[1, 0, 0, 0, 99], 5, [(6, 42)], 0⟩ ∧
    oldStoreInMemory ⟨[1, 0, 0, 0, 99], 5, [], 0⟩ 4 0 42 =
      .ok ⟨[1, 0, 0, 0, 42], 5, [], 0⟩ :=
  ⟨rfl, rfl, rfl⟩

/-! ## Claim C7 -/

/-- Claim C7 (confirmed): whenever the word at the instruction pointer
is `99`, any `run()` call returns immediately — the gathered outputs
under `gather_output`, `None` otherwise — with the instance state
completely unchanged, so every subsequent `run()` call is the same
no-op. -/
theorem C7_halted_terminal (n : Nat) (s : Computer) (h : value s = .ok 99) :
    runFuel (n + 1) s =
      .ret (if s.gatherOutput then RunEvent.gathered s.outputs else RunEvent.noneValue)
        s := by
  have hs : runStep s =
      .finished (.ret (if s.gatherOutput then RunEvent.gathered s.outputs
        else RunEvent.noneValue) s) := by
    unfold runStep halted
    rw [h]
    rfl
  show (match runStep s with
    | .finished o => o
    | .next s1 => runFuel n s1) = _
  rw [hs]

/-- Instance used for claim C7's witness: the one-word program `[99]`. -/
def c7prog : Computer :=
  mkComputer [99] [] none false false false false false

/-- Claim C7, witness: `run()` on the halted program `[99]` returns
`None` and leaves the instance untouched. -/
theorem C7_witness : runFuel 1 c7prog = .ret RunEvent.noneValue c7prog := by
  have h := C7_halted_terminal 0 c7prog rfl
  simpa using h

/-! ## Claim C8 -/

/-- Claim C8 (confirmed): for the shared body of
`_execute_code_1/2/7/8`, supplying an operand value `v` in immediate
mode produces exactly the same resulting state — in particular the same
destination result — as supplying, in position mode, the address of a
cell holding `v`; this holds for either source operand position. -/
theorem C8_mode_equiv (s : Computer) (a v p2 m2 p3 m3 : Int)
    (h : dictGet? s.memory a = some v) :
    (∀ f : Int → Int → Int,
      binOpCore f s v 1 p2 m2 p3 m3 = binOpCore f s a 0 p2 m2 p3 m3) ∧
    (∀ f : Int → Int → Int,
      binOpCore f s p2 m2 v 1 p3 m3 = binOpCore f s p2 m2 a 0 p3 m3) := by
  have hval : valueForMode s v 1 = valueForMode s a 0 := by
    unfold valueForMode dictGetD
    rw [h]
    norm_num
  exact ⟨fun f => by unfold binOpCore; rw [hval],
    fun f => by unfold binOpCore; rw [hval]⟩

/-- Instance used for claim C8's witness: `[1, 0, 0, 0, 99]`, whose
memory holds `99` at address `4`. -/
def c8prog : Computer :=
  mkComputer [1, 0, 0, 0, 99] [] none false false false false false

/-- Claim C8, witness: adding immediate `99` gives the same state as
adding position-mode address `4` (which holds `99`). -/
theorem C8_witness :
    binOpCore (fun u w => u + w) c8prog 99 1 2 1 0 0 =
      binOpCore (fun u w => u + w) c8prog 4 0 2 1 0 0 :=
  (C8_mode_equiv c8prog 4 99 2 1 0 0 rfl).1 _

/-! ## Claim C9 -/

/-- Claim C9 (confirmed): constructing with `amp_phase` not `None`
mutates the caller-supplied `inputs` list in place — after `__init__`
the caller's list is `amp_phase :: inputs`, which differs from the list
passed in — and the instance's own input queue is a copy of that
mutated list. -/
theorem C9_ctor_mutates_inputs (program inputs : List Int) (p : Int)
    (a r po ro g : Bool) :
    (initComputer program inputs (some p) a r po ro g).2 = p :: inputs ∧
    (initComputer program inputs (some p) a r po ro g).1.inputs = p :: inputs ∧
    p :: inputs ≠ inputs :=
  ⟨rfl, rfl, List.cons_ne_self p inputs⟩

/-! ## Claim C10 -/

/-- Claim C10 (confirmed): `reset()` sets the accumulated output list
to the empty list, in addition to restoring the memory, the instruction
pointer and the input queue to their construction-time snapshots. -/
theorem C10_reset_clears_outputs (s : Computer) :
    (reset s).outputs = [] ∧ (reset s).memory = s.originalProgram ∧
    (reset s).pointer = 0 ∧ (reset s).inputs = s.originalInputs :=
  ⟨rfl, rfl, rfl, rfl⟩

/-! ## Claim C1 -/

theorem halted_of_value (s : Computer) (w : Int) (hv : value s = .ok w)
    (hw : w ≠ 99) : halted s = .ok false := by
  unfold halted
  rw [hv]
  simp [Except.map, beq_eq_false_iff_ne, hw]

theorem currentCodeChar_of_value (s : Computer) (w : Int)
    (hv : value s = .ok w) :
    currentCodeChar s = .ok (lastChar (pyStr w)) := by
  unfold currentCodeChar
  rw [hv]
  rfl

/-- Claim C1 as amended: with `return_before_input` set, an empty input
queue and the next instruction dispatching to opcode 3, the FIRST
`run()` call returns the sentinel with the instruction pointer, memory
and input queue unchanged (only the internal `_returned` flag is set);
a SECOND `run()` call before input arrives does not return the sentinel
but raises `IndexError` from popping the empty queue, again without
mutating the instance — so the same instruction is retried verbatim
once input is appended. -/
theorem C1_amended (n : Nat) (s : Computer) (w : Int)
    (hv : value s = .ok w) (hw : w ≠ 99) (hc : lastChar (pyStr w) = '3')
    (hr : s.returnBeforeInput = true) :
    (s.returned = false →
      runFuel (n + 1) s = .ret .sentinelReturn { s with returned := true }) ∧
    (s.returned = true → s.askForInput = false → s.inputs = [] →
      ∀ p m : Int, paramValAndMode s 1 = .ok ([p], [m]) →
        runFuel (n + 1) s = .exc .indexError s) := by
  have hh := halted_of_value s w hv hw
  have hcc := currentCodeChar_of_value s w hv
  rw [hc] at hcc
  constructor
  · intro hret
    have hs : runStep s = .finished (.ret .sentinelReturn { s with returned := true }) := by
      unfold runStep
      rw [hh, hcc]
      simp [hr, hret]
    show (match runStep s with
      | .finished o => o
      | .next s1 => runFuel n s1) = _
    rw [hs]
  · intro hret hask hinp p m hpm
    have hs : runStep s = .finished (.exc .indexError s) := by
      unfold runStep
      rw [hh, hcc]
      simp only [hret, Bool.true_eq_false, and_false, if_false, ite_false]
      have hx : executeCode '3' s = .exc .indexError s := by
        unfold executeCode executeCode3
        rw [hpm]
        simp [hask, hinp]
      rw [hx]
    show (match runStep s with
      | .finished o => o
      | .next s1 => runFuel n s1) = _
    rw [hs]

/-- Instance used against claim C1: program `[3, 0, 99]` with an empty
input queue and `return_before_input=True`. -/
def c1prog : Computer :=
  mkComputer [3, 0, 99] [] none false true false false false

/-- Claim C1, counterexample: the first `run()` on `[3, 0, 99]` with an
empty queue returns the sentinel and sets the `_returned` flag; a
second `run()` on the resulting instance does not return the sentinel
(it raises `IndexError`), refuting that every call in the sequence
suspends. -/
theorem C1_counterexample :
    runFuel 1 c1prog = .ret .sentinelReturn { c1prog with returned := true } ∧
    outcomeEvent? (runFuel 1 { c1prog with returned := true }) ≠
      some RunEvent.sentinelReturn := by
  exact ⟨rfl, by decide⟩

/-- Claim C1, witness: both branches of the amended claim instantiated
on `[3, 0, 99]`. -/
theorem C1_witness :
    runFuel 1 c1prog = .ret .sentinelReturn { c1prog with returned := true } ∧
    runFuel 1 { c1prog with returned := true } =
      .exc .indexError { c1prog with returned := true } := by
  constructor
  · exact (C1_amended 0 c1prog 3 rfl (by decide) (by decide) rfl).1 rfl
  · exact (C1_amended 0 { c1prog with returned := true } 3 rfl (by decide)
      (by decide) rfl).2 rfl rfl rfl 0 0 rfl

/-! ## Claim C3 -/

/-- Claim C3 as amended: the engine dispatches on the LAST decimal
digit of the instruction word (the final character of `str(w)`, which
is the digit of `|w| mod 10`), not on `w mod 100`; and it treats the
instruction as halt exactly when the whole word equals `99`. -/
theorem C3_amended (s : Computer) (w : Int) (hv : value s = .ok w) :
    currentCodeChar s = .ok (Nat.digitChar (w.natAbs % 10)) ∧
    (halted s = .ok true ↔ w = 99) := by
  constructor
  · rw [currentCodeChar_of_value s w hv, lastChar_pyStr]
  · unfold halted
    rw [hv]
    constructor
    · intro h
      have : (w == 99) = true := by
        simpa [Except.map] using h
      exact beq_iff_eq.mp this
    · intro h
      simp [Except.map, h]

/-- Instance used against claim C3: program `[199, 5, 99]`, whose first
word has `w mod 100 = 99`. -/
def c3prog : Computer :=
  mkComputer [199, 5, 99] [] none false false false false false

/-- Claim C3, counterexample: the word `199` has `199 mod 100 = 99`,
yet `halted()` is false and running the program executes the word as
opcode 9 (the relative base becomes `5`), refuting both that dispatch
is on `w mod 100` and that halt is decided by `w mod 100 = 99`. -/
theorem C3_counterexample :
    value c3prog = .ok 199 ∧ (199 : Int) % 100 = 99 ∧
    halted c3prog = .ok false ∧
    (outcomeState (runFuel 2 c3prog)).relativeBase = 5 := by
  exact ⟨rfl, by decide, rfl, rfl⟩

/-- Claim C3, witness: the amended claim instantiated at word `199`:
the dispatch character is `'9'` and the instruction is not a halt. -/
theorem C3_witness :
    currentCodeChar c3prog = .ok (Nat.digitChar ((199 : Int).natAbs % 10)) ∧
    ¬ halted c3prog = .ok true := by
  constructor
  · exact (C3_amended c3prog 199 rfl).1
  · intro h
    exact absurd ((C3_amended c3prog 199 rfl).2.mp h) (by decide)

/-! ## Claim C4 -/

/-- Claim C4 as amended: dispatch is on the last decimal digit of the
instruction word, so a word like `113` (decoded opcode 13) is executed
as the valid opcode 3 rather than faulting; the only dispatch failure
is a word whose last digit is `0`, which raises `AttributeError` (no
`_execute_code_0` method exists) — there is no dedicated
`InvalidOpcode` fault. -/
theorem C4_amended (n : Nat) (s : Computer) (w : Int)
    (hv : value s = .ok w) (hw : w ≠ 99) (h0 : w.natAbs % 10 = 0) :
    runFuel (n + 1) s = .exc .attributeError s := by
  have hh := halted_of_value s w hv hw
  have hcc := currentCodeChar_of_value s w hv
  rw [lastChar_pyStr, h0] at hcc
  have hcc0 : currentCodeChar s = .ok '0' := hcc
  have hs : runStep s = .finished (.exc .attributeError s) := by
    unfold runStep
    rw [hh, hcc0]
    rfl
  show (match runStep s with
    | .finished o => o
    | .next s1 => runFuel n s1) = _
  rw [hs]

/-- Instance used against claim C4: program `[113, 0, 99]` with input
`7`; `113` decodes to opcode 13, outside `{1..9, 99}`. -/
def c4prog : Computer :=
  mkComputer [113, 0, 99] [7] none false false false false false

/-- Instance used for claim C4's witness: program `[10, 99]`, whose
first word ends in the digit `0`. -/
def c4zero : Computer :=
  mkComputer [10, 99] [] none false false false false false

/-- Claim C4, counterexample: word `113` (opcode `113 mod 100 = 13`,
outside `{1..9, 99}`) is executed as the valid input instruction — the
program runs to a clean halt, storing the input `7` at address `0` —
instead of failing with an `InvalidOpcode` fault. -/
theorem C4_counterexample :
    (113 : Int) % 100 = 13 ∧
    outcomeEvent? (runFuel 2 c4prog) = some RunEvent.noneValue ∧
    dictGetD (outcomeState (runFuel 2 c4prog)).memory 0 = 7 := by
  exact ⟨by decide, rfl, rfl⟩

/-- Claim C4, witness: the amended claim instantiated at word `10`
(last digit `0`): `run()` raises `AttributeError` with the instance
unchanged. -/
theorem C4_witness : runFuel 1 c4zero = .exc .attributeError c4zero :=
  C4_amended 0 c4zero 10 rfl (by decide) (by decide)

/-! ## Claim C5 -/

/-- Instance family used against claim C5: the program `[4, x, 99]`
outputs the value read, in position mode, from address `x`. -/
def c5prog (x : Int) : Computer :=
  mkComputer [4, x, 99] [] none false false false false true

/-- Instance used against claim C5: `[1101, 1, 1, -5, 99]` writes
`1 + 1` to the negative destination address `-5`. -/
def c5wprog : Computer :=
  mkComputer [1101, 1, 1, -5, 99] [] none false false false false false

/-- Claim C5 as amended: no operand address is validated — a read whose
operand resolves to a negative address silently yields the default `0`
(the address is simply absent from the memory dictionary) and execution
runs to a normal halt; symmetrically a write to a negative address
silently stores there.  For every negative `x`, running `[4, x, 99]`
halts normally with gathered output `[0]` and no fault of any kind. -/
theorem C5_amended (x : Int) (hx : x < 0) :
    runFuel 2 (c5prog x) =
      .ret (RunEvent.gathered [0]) { c5prog x with outputs := [0], pointer := 2 } := by
  have hget : dictGet? [(0, (4 : Int)), (1, x), (2, 99)] x = none := by
    simp only [dictGet?]
    rw [if_neg (by omega), if_neg (by omega), if_neg (by omega)]
  have h1 : runStep (c5prog x) =
      .next { c5prog x with
        outputs := [(dictGet? [(0, (4 : Int)), (1, x), (2, 99)] x).getD 0]
        pointer := 2 } := rfl
  rw [hget] at h1
  simp only [Option.getD_none] at h1
  calc runFuel 2 (c5prog x)
      = runFuel 1 { c5prog x with outputs := [0], pointer := 2 } := by
        show (match runStep (c5prog x) with
          | .finished o => o
          | .next s1 => runFuel 1 s1) = _
        rw [h1]
    _ = .ret (RunEvent.gathered [0]) { c5prog x with outputs := [0], pointer := 2 } :=
        rfl

/-- Claim C5, counterexample: the program `[4, -1, 99]` reads the
negative address `-1` and runs to a clean halt gathering `[0]`, and the
program `[1101, 1, 1, -5, 99]` writes to the negative address `-5` and
the written value is read back — no `AddressError` fault exists. -/
theorem C5_counterexample :
    outcomeEvent? (runFuel 2 (c5prog (-1))) = some (RunEvent.gathered [0]) ∧
    dictGetD (outcomeState (runFuel 2 c5wprog)).memory (-5) = 2 := by
  exact ⟨rfl, rfl⟩

/-- Claim C5, witness: the amended claim instantiated at `x = -1`. -/
theorem C5_witness :
    runFuel 2 (c5prog (-1)) =
      .ret (RunEvent.gathered [0]) { c5prog (-1) with outputs := [0], pointer := 2 } :=
  C5_amended (-1) (by decide)

end Intcode
